import Mathlib

/-!
Shallow embedding of the hug_swagger repository (OpenAPI document generation
for hug applications) and proofs about its parameter/response classifiers and
document assembly.

Two generations of the generator coexist in the repository and are embedded
side by side:
* namespace `HugSwagger.Init`    — `hug_swagger/__init__.py` (apispec 0.x,
  OpenAPI 2.x dialect, `swagger_json` endpoint, `get_operation` responses);
* namespace `HugSwagger.Swagger` — `hug_swagger/swagger.py` (apispec 1.x+,
  OpenAPI 3.x dialect, `generate_spec`).

Python dictionaries are modelled as association lists in insertion order;
Python objects whose identity matters (the per-status response descriptors
attached to a handler, which are shared by reference after a shallow `copy`)
are modelled through an explicit store of descriptors addressed by `Nat`.
-/

namespace HugSwagger

/-- A marshmallow schema class, identified by its defining module
    (`__module__`) and class name (`__name__`); consumed read-only. -/
structure SchemaClass where
  mod : String
  name : String
deriving DecidableEq, Repr

/-- A marshmallow field instance used as a parameter annotation.  `required`
    and `metadata` are plain attributes that the classifiers assign to. -/
structure Field where
  ftype : String
  format : Option String
  required : Bool
  metadata : List (String × String)
deriving DecidableEq, Repr

/-- The annotation attached to a handler parameter
    (`inspect.Parameter.annotation`): absent (`inspect.Parameter.empty`),
    a hug directive (an object with a truthy `directive` attribute), a
    marshmallow field instance, a marshmallow Schema instance, a Schema
    class, or some other unsupported object. -/
inductive Annot where
  | empty
  | directive
  | field (f : Field)
  | schemaInst (s : SchemaClass)
  | schemaCls (s : SchemaClass)
  | other
deriving DecidableEq, Repr

/-- One declared handler parameter: name, annotation, optional default. -/
structure HandlerParam where
  name : String
  annot : Annot
  default : Option Int
deriving DecidableEq, Repr

/-- The value under the `schema` key of a generated parameter descriptor:
    either an inline type/format description produced by the converter, or a
    `$ref` object. -/
inductive ParamSchemaVal where
  | inline (ftype : String) (format : Option String)
  | ref (path : String)
deriving DecidableEq, Repr

/-- A generated parameter descriptor (`in`, `name`, `required`, optional
    `default`, `schema`). -/
structure ParamDescriptor where
  location : String
  name : String
  required : Bool
  default : Option Int
  schema : ParamSchemaVal
deriving DecidableEq, Repr

/-- The registry of named schema definitions accumulated in the APISpec
    object (`definitions` / `components.schemas`), in insertion order. -/
abbrev Registry := List (String × SchemaClass)

/-- Number of registered definitions carrying a given name. -/
def countName (reg : Registry) (nm : String) : Nat :=
  reg.countP (fun e => e.1 == nm)

/-- Association-list lookup for string-keyed Python dicts. -/
def strDictGet {α : Type} (d : List (String × α)) (k : String) : Option α :=
  (d.find? (fun e => e.1 == k)).map (fun e => e.2)

/-- Association-list assignment for string-keyed Python dicts: replaces the
    value in place on an existing key, appends otherwise. -/
def strDictSet {α : Type} : List (String × α) → String → α → List (String × α)
  | [], k, v => [(k, v)]
  | e :: rest, k, v => if e.1 == k then (k, v) :: rest else e :: strDictSet rest k v

/-- Containment of a character list in another (contiguous occurrence). -/
def listContains : List Char → List Char → Bool
  | [], needle => needle.isEmpty
  | c :: t, needle => needle.isPrefixOf (c :: t) || listContains t needle

/-- `needle in haystack` on Python strings (substring containment). -/
def strContains (hay needle : String) : Bool :=
  listContains hay.toList needle.toList

/-- `s.startswith(pre)` on Python strings. -/
def strStartsWith (s pre : String) : Bool :=
  pre.toList.isPrefixOf s.toList

/-- `s.lower()` on Python strings (ASCII HTTP method names). -/
def strToLower (s : String) : String :=
  String.mk (s.toList.map Char.toLower)

/-- Model of the external apispec marshmallow converter `field2parameter`:
    renders the field's type/format into the parameter description, places
    the parameter at `default_in`, and copies the field's `required`
    attribute into the descriptor. -/
def field2parameter (f : Field) (name : String) (default_in : String) : ParamDescriptor :=
  { location := default_in
    name := name
    required := f.required
    default := none
    schema := ParamSchemaVal.inline f.ftype f.format }

/-- Model of the external apispec (≥ 1.x) `spec.components.schema`: raises
    `DuplicateComponentNameError` when the name is already registered,
    otherwise appends the definition. -/
def apispecComponentsSchema (reg : Registry) (nm : String) (s : SchemaClass) :
    Except String Registry :=
  if reg.any (fun e => e.1 == nm) then Except.error "DuplicateComponentNameError"
  else Except.ok (reg ++ [(nm, s)])

end HugSwagger

namespace HugSwagger.Swagger

/-- Constant `PARAMETER_IN_PATH` of hug_swagger/swagger.py. -/
def PARAMETER_IN_PATH : String := "path"

/-- Constant `PARAMETER_IN_QUERY` of hug_swagger/swagger.py. -/
def PARAMETER_IN_QUERY : String := "query"

/-- `get_parameter_location` of hug_swagger/swagger.py:
    `PARAMETER_IN_PATH if "{%s}" % name in url else PARAMETER_IN_QUERY`. -/
def get_parameter_location (name url : String) : String :=
  if strContains url ("\x7b" ++ name ++ "\x7d") then PARAMETER_IN_PATH else PARAMETER_IN_QUERY

/-- The registry name synthesized for a body schema in hug_swagger/swagger.py:
    `f"{schema.__module__}.{schema.__class__.__name__}"`. -/
def qualifiedName (s : SchemaClass) : String :=
  s.mod ++ "." ++ s.name

/-- The `try: spec.components.schema(...) except DuplicateComponentNameError:
    pass` block of hug_swagger/swagger.py. -/
def registerSchemaCaught (reg : Registry) (nm : String) (s : SchemaClass) : Registry :=
  match apispecComponentsSchema reg nm s with
  | Except.ok r => r
  | Except.error _ => reg

/-- The body branch of the parameter loop of hug_swagger/swagger.py: both a
    Schema class and a Schema instance resolve to the same class, whose
    module-qualified name is registered and referenced. -/
def processBody (reg : Registry) (p : HandlerParam) (s : SchemaClass) :
    Registry × HandlerParam × Option ParamDescriptor :=
  let schema_name := qualifiedName s
  let reg2 := registerSchemaCaught reg schema_name s
  let ref_definition := "#/components/schemas/" ++ schema_name
  (reg2, p,
   some { location := "body", name := "body", required := true, default := none,
          schema := ParamSchemaVal.ref ref_definition })

/-- One iteration of the parameter loop of `get_parameters` in
    hug_swagger/swagger.py.  Returns the registry after the iteration, the
    parameter as the iteration leaves it (a marshmallow field annotation is
    assigned to in place: `parameter_kind.metadata = {"location": ...}`),
    and the descriptor appended to the output, if any. -/
def processOne (url : String) (reg : Registry) (p : HandlerParam) :
    Registry × HandlerParam × Option ParamDescriptor :=
  if (p.annot == Annot.directive) || strStartsWith p.name "hug_"
      || (p.name == "request") || (p.name == "response") then
    (reg, p, none)
  else
    match p.annot with
    | Annot.field f =>
      let place := get_parameter_location p.name url
      let f2 := { f with metadata := [("location", place)] }
      let parameter := field2parameter f2 p.name place
      let parameter :=
        if p.default.isSome then { parameter with default := p.default, required := false }
        else { parameter with required := true }
      (reg, { p with annot := Annot.field f2 }, some parameter)
    | Annot.schemaInst s => if p.name == "body" then processBody reg p s else (reg, p, none)
    | Annot.schemaCls s => if p.name == "body" then processBody reg p s else (reg, p, none)
    | _ => (reg, p, none)

/-- The parameter loop of `get_parameters` in hug_swagger/swagger.py, over a
    list of declared parameters.  Returns the descriptors in order, the
    post-state of the parameters and the post-state of the registry. -/
def processAll (url : String) : List HandlerParam → Registry →
    List ParamDescriptor × List HandlerParam × Registry
  | [], reg => ([], [], reg)
  | p :: ps, reg =>
    let step := processOne url reg p
    let rest := processAll url ps step.1
    (match step.2.2 with
     | some d => d :: rest.1
     | none => rest.1,
     step.2.1 :: rest.2.1, rest.2.2)

/-- `get_parameters` of hug_swagger/swagger.py. -/
def get_parameters (url : String) (ps : List HandlerParam) (reg : Registry) :
    List ParamDescriptor × List HandlerParam × Registry :=
  processAll url ps reg

/-- Effect of one loop iteration of `get_parameters` on the parameter's
    annotation object: a processed marshmallow field has its `metadata`
    attribute overwritten with the computed location; everything else is
    left untouched. -/
def postParam (url : String) (p : HandlerParam) : HandlerParam :=
  if (p.annot == Annot.directive) || strStartsWith p.name "hug_"
      || (p.name == "request") || (p.name == "response") then
    p
  else
    match p.annot with
    | Annot.field f =>
      let f2 := { f with metadata := [("location", get_parameter_location p.name url)] }
      { p with annot := Annot.field f2 }
    | _ => p

end HugSwagger.Swagger

namespace HugSwagger.Init

/-- `where_is_parameter` of hug_swagger/__init__.py:
    `'path' if '{%s}' % name in url else 'query'`. -/
def where_is_parameter (name url : String) : String :=
  if strContains url ("\x7b" ++ name ++ "\x7d") then "path" else "query"

/-- Model of the external apispec 0.x `spec.definition`: plain dict
    assignment into the definitions map (an existing name is overwritten in
    place, a new name is appended). -/
def specDefinition (reg : Registry) (nm : String) (s : SchemaClass) : Registry :=
  strDictSet reg nm s

/-- The body branch of the parameter loop of hug_swagger/__init__.py: the
    registry name is the bare class name, registered via `spec.definition`
    and referenced as `#/definitions/<name>`. -/
def processBody (reg : Registry) (p : HandlerParam) (s : SchemaClass) :
    Registry × HandlerParam × Option ParamDescriptor :=
  let schema_name := s.name
  let reg2 := specDefinition reg schema_name s
  let ref_definition := "#/definitions/" ++ schema_name
  (reg2, p,
   some { location := "body", name := "body", required := true, default := none,
          schema := ParamSchemaVal.ref ref_definition })

/-- One iteration of the parameter loop of `get_parameters` in
    hug_swagger/__init__.py.  A marshmallow field annotation is assigned to
    in place (`parameter_type.metadata = ...` and
    `parameter_type.required = name not in defaults`); `interface.defaults`
    maps exactly the parameters carrying a default value, so membership in
    it is `p.default.isSome`. -/
def processOne (url : String) (reg : Registry) (p : HandlerParam) :
    Registry × HandlerParam × Option ParamDescriptor :=
  if p.annot == Annot.directive then
    (reg, p, none)
  else if p.annot == Annot.empty then
    (reg, p, none)
  else
    match p.annot with
    | Annot.field f =>
      let place := where_is_parameter p.name url
      let f2 := { f with metadata := [("location", where_is_parameter p.name url)],
                         required := p.default.isNone }
      let parameter := field2parameter f2 p.name place
      let parameter :=
        match p.default with
        | some d => { parameter with default := some d }
        | none => parameter
      (reg, { p with annot := Annot.field f2 }, some parameter)
    | Annot.schemaInst s => if p.name == "body" then processBody reg p s else (reg, p, none)
    | Annot.schemaCls s => if p.name == "body" then processBody reg p s else (reg, p, none)
    | _ => (reg, p, none)

/-- The parameter loop of `get_parameters` in hug_swagger/__init__.py. -/
def processAll (url : String) : List HandlerParam → Registry →
    List ParamDescriptor × List HandlerParam × Registry
  | [], reg => ([], [], reg)
  | p :: ps, reg =>
    let step := processOne url reg p
    let rest := processAll url ps step.1
    (match step.2.2 with
     | some d => d :: rest.1
     | none => rest.1,
     step.2.1 :: rest.2.1, rest.2.2)

/-- `get_parameters` of hug_swagger/__init__.py. -/
def get_parameters (url : String) (ps : List HandlerParam) (reg : Registry) :
    List ParamDescriptor × List HandlerParam × Registry :=
  processAll url ps reg

/-- Effect of one loop iteration of `get_parameters` in
    hug_swagger/__init__.py on the parameter's annotation object: a
    processed marshmallow field has its `metadata` attribute overwritten
    with the computed location and its `required` attribute overwritten
    with `name not in defaults`; everything else is left untouched. -/
def postParam (url : String) (p : HandlerParam) : HandlerParam :=
  if p.annot == Annot.directive then p
  else if p.annot == Annot.empty then p
  else
    match p.annot with
    | Annot.field f =>
      let f2 := { f with metadata := [("location", where_is_parameter p.name url)],
                         required := p.default.isNone }
      { p with annot := Annot.field f2 }
    | _ => p

end HugSwagger.Init

namespace HugSwagger.Init

/-- A value found under the `schema` key of a response descriptor: a
    registered name (string), a Schema instance, a Schema class, a `$ref`
    object, or some other unrecognized object. -/
inductive RespSchemaVal where
  | str (s : String)
  | inst (c : SchemaClass)
  | cls (c : SchemaClass)
  | refObj (path : String)
  | other
deriving DecidableEq, Repr

/-- One response descriptor dict: optional `schema` key, optional
    `description` key. -/
structure RespDescriptor where
  schema : Option RespSchemaVal
  description : Option String
deriving DecidableEq, Repr

/-- Store of response descriptor objects; Python dict values are object
    references (`Nat` addresses into the store), so that a shallow `copy`
    of a dict shares the descriptor objects with the original. -/
abbrev Store := List RespDescriptor

/-- A responses dict: status code to descriptor object reference, in
    insertion order. -/
abbrev RespDict := List (Int × Nat)

/-- Lookup of a status code in a responses dict. -/
def dictLookup (d : RespDict) (k : Int) : Option Nat :=
  (d.find? (fun e => e.1 == k)).map (fun e => e.2)

/-- The name the for-loop of `get_operation` resolves for a recognized
    schema value (`none` for the unrecognized `else` branch that logs
    `'Wrong response schema'`). -/
def respSchemaRefName : RespSchemaVal → Option String
  | RespSchemaVal.str n => some n
  | RespSchemaVal.inst c => some c.name
  | RespSchemaVal.cls c => some c.name
  | _ => none

/-- The body of the for-loop of `get_operation` for one entry of the
    responses dict.  The descriptor at `addr` is read and copied
    (`response = copy(response)`); on `KeyError` (no `schema` key) the
    entry is left bound to the original object (`none` as rebinding
    address).  Otherwise the copy — with the schema value replaced by a
    `$ref` object for the three recognized cases, and left as-is in the
    unrecognized case — becomes a fresh object the entry is rebound to. -/
def processResp (store : Store) (reg : Registry) (addr : Nat) :
    Store × Registry × Option Nat :=
  let d := store.getD addr { schema := none, description := none }
  match d.schema with
  | none => (store, reg, none)
  | some s =>
    match s with
    | RespSchemaVal.str n =>
      (store ++ [{ d with schema := some (RespSchemaVal.refObj ("#/definitions/" ++ n)) }],
       reg, some store.length)
    | RespSchemaVal.inst c =>
      (store ++ [{ d with schema := some (RespSchemaVal.refObj ("#/definitions/" ++ c.name)) }],
       specDefinition reg c.name c, some store.length)
    | RespSchemaVal.cls c =>
      (store ++ [{ d with schema := some (RespSchemaVal.refObj ("#/definitions/" ++ c.name)) }],
       specDefinition reg c.name c, some store.length)
    | _ =>
      (store ++ [d], reg, some store.length)

/-- The for-loop of `get_operation` over the entries of the responses
    dict, rebinding entries as `responses[code] = response` does. -/
def processResps : RespDict → Store → Registry → RespDict × Store × Registry
  | [], store, reg => ([], store, reg)
  | (code, addr) :: rest, store, reg =>
    let step := processResp store reg addr
    let tail := processResps rest step.1 step.2.1
    ((code, step.2.2.getD addr) :: tail.1, tail.2.1, tail.2.2)

/-- `get_operation` of hug_swagger/__init__.py over an explicit descriptor
    store.  `metaDict` is the `swagger_responses` mapping attached to the
    handler; `responses = copy(...)` is a shallow copy, so
    `responses.setdefault(200, {})['schema'] = annotated_response_schema`
    assigns through the shared descriptor object when status 200 is already
    present.  Returns the resulting responses dict, the final store and the
    final registry. -/
def get_operation (returnAnnot : Option RespSchemaVal) (metaDict : RespDict)
    (use_default_response : Bool) (store : Store) (reg : Registry) :
    RespDict × Store × Registry :=
  let responses := metaDict
  let merged :=
    match returnAnnot with
    | none => (responses, store)
    | some a =>
      match dictLookup responses 200 with
      | some addr =>
        (responses,
         store.set addr
           { store.getD addr { schema := none, description := none } with schema := some a })
      | none =>
        (responses ++ [(200, store.length)],
         store ++ [({ schema := some a, description := none } : RespDescriptor)])
  let defaulted :=
    if use_default_response then
      match dictLookup merged.1 200 with
      | some _ => merged
      | none =>
        (merged.1 ++ [(200, merged.2.length)],
         merged.2 ++ [({ schema := none, description := none } : RespDescriptor)])
    else merged
  processResps defaulted.1 defaulted.2 reg

/-- Lookup of the descriptor a code is bound to in a `get_operation`
    result. -/
def derefLookup (result : RespDict × Store × Registry) (code : Int) : Option RespDescriptor :=
  (dictLookup result.1 code).map
    (fun addr => result.2.1.getD addr { schema := none, description := none })

/-- The versions key of a route entry: a bare scalar (an int or None) or an
    iterable of such values. -/
inductive Versions where
  | scalar (v : Option Int)
  | iter (vs : List (Option Int))
deriving DecidableEq, Repr

/-- `if not isinstance(versions, collections.Iterable): versions =
    [versions]` of hug_swagger/__init__.py. -/
def normalizeVersions : Versions → List (Option Int)
  | Versions.scalar v => [v]
  | Versions.iter vs => vs

/-- `versioned_url = '/v{}{}'.format(version, url) if version else url` of
    hug_swagger/__init__.py; `version` is truthy only when it is a nonzero
    int (None and 0 are falsy in Python). -/
def versionedUrl (version : Option Int) (url : String) : String :=
  match version with
  | some v => if v != 0 then "/v" ++ toString v ++ url else url
  | none => url

end HugSwagger.Init

namespace HugSwagger

/-- The paths mapping of the document: url to (lowercased method to
    operation data), in insertion order. -/
abbrev Paths (α : Type) := List (String × List (String × α))

/-- Model of the external apispec `add_path` / `spec.path`: merge the given
    operations mapping into the entry for `url`, creating the entry when
    absent. -/
def addPath {α : Type} : Paths α → String → List (String × α) → Paths α
  | [], url, ops => [(url, ops)]
  | e :: rest, url, ops =>
    if e.1 == url then
      (e.1, ops.foldl (fun d kv => strDictSet d kv.1 kv.2) e.2) :: rest
    else
      e :: addPath rest url ops

/-- Lookup of the operation data registered for a (url, method) pair. -/
def lookupOp {α : Type} (ps : Paths α) (url method : String) : Option α :=
  (ps.find? (fun e => e.1 == url)).bind
    (fun e => (e.2.find? (fun o => o.1 == method)).map (fun o => o.2))

end HugSwagger

namespace HugSwagger.Init

/-- Lines 188–197 of hug_swagger/__init__.py: normalize the versions key of
    a route entry and register the operation data at each versioned url
    under the lowercased method. -/
def addRoutePaths {α : Type} (ps : Paths α) (url method : String)
    (versions : Versions) (methods_data : α) : Paths α :=
  (normalizeVersions versions).foldl
    (fun acc version => addPath acc (versionedUrl version url) [(strToLower method, methods_data)])
    ps

end HugSwagger.Init

namespace HugSwagger.Swagger

/-- Default configuration constants of hug_swagger/swagger.py. -/
def DEFAULT_HOST : String := "localhost:8080"

/-- Default schemes of hug_swagger/swagger.py. -/
def DEFAULT_SCHEMES : List String := ["http"]

/-- Default OpenAPI version of hug_swagger/swagger.py. -/
def DEFAULT_OPENAPI_VERSION : String := "3.0.2"

/-- Default title of hug_swagger/swagger.py. -/
def DEFAULT_TITLE : String := "Swagger Documentation for your application"

/-- `get_summary` of hug_swagger/swagger.py: first line of the docstring
    when one is given. -/
def get_summary (doc : Option String) : Option String :=
  match doc with
  | some d => some ((d.splitOn "\n").headD "")
  | none => none

/-- The read-only view of a route handler that `generate_spec` consumes:
    its declared parameters, `documentation().get("usage")` (the docstring
    or None) and `documentation()["outputs"]["content_type"]`. -/
structure Interface where
  params : List HandlerParam
  usage : Option String
  content_type : String
deriving DecidableEq, Repr

/-- The per-operation object written into the paths mapping by
    `generate_spec`: `summary`/`description` present only for a truthy
    docstring, `parameters` present only when non-empty. -/
structure OpData where
  content_type : String
  summary : Option String
  description : Option String
  parameters : Option (List ParamDescriptor)
deriving DecidableEq, Repr

/-- The versions key to interface mapping of one (url, method) route
    entry; `generate_spec` iterates it and ignores the versions key. -/
abbrev VersionedInterfaces := List (Init.Versions × Interface)

/-- The routes relative to one base url: url to method to versioned
    interfaces. -/
abbrev RelRoutes := List (String × List (String × VersionedInterfaces))

/-- `hug_api.http.routes`: base url to relative routes. -/
abbrev RouteTable := List (String × RelRoutes)

/-- The generation options of `generate_spec` that shape the document. -/
structure SpecConfig where
  title : String
  version : Option String
  openapi_version : String
  host : String
  schemes : List String
deriving DecidableEq, Repr

/-- The generated document: global metadata, the paths mapping, and the
    accumulated schema definitions (`components.schemas`). -/
structure SwaggerDoc where
  title : String
  version : Option String
  openapi_version : String
  host : String
  schemes : List String
  paths : Paths OpData
  schemas : Registry
deriving DecidableEq, Repr

/-- The per-interface body of the route loop of `generate_spec`: build the
    `handler_spec` dict and thread the registry through `get_parameters`. -/
def buildOperationData (op : Interface) (url : String) (reg : Registry) :
    OpData × Registry :=
  let base : OpData :=
    { content_type := op.content_type, summary := none, description := none, parameters := none }
  let base :=
    match op.usage with
    | some u =>
      if u ≠ "" then { base with summary := get_summary (some u), description := some u }
      else base
    | none => base
  let res := get_parameters url op.params reg
  let base := if res.1 ≠ [] then { base with parameters := some res.1 } else base
  (base, res.2.2)

/-- The route loop of `generate_spec`: one `spec.path(url, operations=
    {method.lower(): handler_spec})` call per versioned interface. -/
def processRoutes (relRoutes : RelRoutes) (reg : Registry) (paths : Paths OpData) :
    Paths OpData × Registry :=
  relRoutes.foldl
    (fun acc urlRoute =>
      urlRoute.2.foldl
        (fun acc2 methodEntry =>
          methodEntry.2.foldl
            (fun acc3 vi =>
              let built := buildOperationData vi.2 urlRoute.1 acc3.2
              (addPath acc3.1 urlRoute.1 [(strToLower methodEntry.1, built.1)], built.2))
            acc2)
        acc)
    (paths, reg)

/-- `generate_spec` of hug_swagger/swagger.py.  An empty route table
    returns the fresh document immediately; a non-empty route table is
    indexed at base url `""` (`routes[""]`, a KeyError when absent —
    modelled as an error value) and its routes are folded into the
    document. -/
def generate_spec (cfg : SpecConfig) (routes : RouteTable) : Except String SwaggerDoc :=
  match routes with
  | [] =>
    Except.ok
      { title := cfg.title, version := cfg.version, openapi_version := cfg.openapi_version,
        host := cfg.host, schemes := cfg.schemes, paths := [], schemas := [] }
  | _ =>
    match routes.find? (fun e => e.1 == "") with
    | none => Except.error "KeyError"
    | some e =>
      let res := processRoutes e.2 [] []
      Except.ok
        { title := cfg.title, version := cfg.version, openapi_version := cfg.openapi_version,
          host := cfg.host, schemes := cfg.schemes, paths := res.1, schemas := res.2 }

end HugSwagger.Swagger

namespace HugSwagger

theorem listContains_iff (hay needle : List Char) :
    listContains hay needle = true ↔ needle <:+: hay := by
  induction hay with
  | nil => simp [listContains, List.isEmpty_iff, List.infix_nil]
  | cons c t ih =>
    simp [listContains, Bool.or_eq_true, List.isPrefixOf_iff_prefix, ih,
      List.infix_cons_iff]

theorem strContains_iff (hay needle : String) :
    strContains hay needle = true ↔ needle.toList <:+: hay.toList := by
  unfold strContains
  exact listContains_iff hay.toList needle.toList

/-- Claim C6: for every typed-scalar (marshmallow field) handler parameter
    named `name` on a route with URL template `url`, the generated
    parameter descriptor has location `"path"` exactly when the literal
    substring `{name}` occurs in `url`, and `"query"` otherwise;
    `where_is_parameter` of hug_swagger/__init__.py and
    `get_parameter_location` of hug_swagger/swagger.py agree, and the
    descriptor emitted by either parameter loop carries that location. -/
theorem claim_parameter_location (name url : String) (reg : Registry) (f : Field)
    (df : Option Int)
    (h1 : strStartsWith name "hug_" = false) (h2 : name ≠ "request") (h3 : name ≠ "response") :
    (Swagger.get_parameter_location name url = "path" ↔
      ("\x7b" ++ name ++ "\x7d").toList <:+: url.toList)
    ∧ (Swagger.get_parameter_location name url = "query" ↔
      ¬ ("\x7b" ++ name ++ "\x7d").toList <:+: url.toList)
    ∧ Init.where_is_parameter name url = Swagger.get_parameter_location name url
    ∧ (∃ d, (Swagger.processOne url reg { name := name, annot := Annot.field f, default := df }).2.2
        = some d ∧ d.location = Swagger.get_parameter_location name url)
    ∧ (∃ d, (Init.processOne url reg { name := name, annot := Annot.field f, default := df }).2.2
        = some d ∧ d.location = Init.where_is_parameter name url) := by
  have hpq : ("path" : String) ≠ "query" := by decide
  have hdesc : ∃ d, (Swagger.processOne url reg
      { name := name, annot := Annot.field f, default := df }).2.2
      = some d ∧ d.location = Swagger.get_parameter_location name url := by
    cases df <;> simp [Swagger.processOne, field2parameter, h1, h2, h3]
  have hdesc2 : ∃ d, (Init.processOne url reg
      { name := name, annot := Annot.field f, default := df }).2.2
      = some d ∧ d.location = Init.where_is_parameter name url := by
    cases df <;> simp [Init.processOne, field2parameter]
  by_cases hc : ("\x7b" ++ name ++ "\x7d").toList <:+: url.toList
  · have hb : strContains url ("\x7b" ++ name ++ "\x7d") = true :=
      (strContains_iff url ("\x7b" ++ name ++ "\x7d")).mpr hc
    refine ⟨?_, ?_, ?_, hdesc, hdesc2⟩ <;>
      simp [Swagger.get_parameter_location, Init.where_is_parameter, hb,
        Swagger.PARAMETER_IN_PATH, Swagger.PARAMETER_IN_QUERY, hpq] <;>
      simpa using hc
  · have hb : strContains url ("\x7b" ++ name ++ "\x7d") = false :=
      Bool.eq_false_iff.mpr (fun habs => hc ((strContains_iff url _).mp habs))
    refine ⟨?_, ?_, ?_, hdesc, hdesc2⟩ <;>
      simp [Swagger.get_parameter_location, Init.where_is_parameter, hb,
        Swagger.PARAMETER_IN_PATH, Swagger.PARAMETER_IN_QUERY, hpq.symm] <;>
      simpa using hc

/-- Witness for claim C6 at a concrete path parameter. -/
theorem claim_parameter_location_witness :
    strStartsWith "foo" "hug_" = false ∧ ("foo" : String) ≠ "request"
    ∧ ("foo" : String) ≠ "response"
    ∧ (Swagger.get_parameter_location "foo" "/a/\x7bfoo\x7d" = "path" ↔
        ("\x7b" ++ "foo" ++ "\x7d").toList <:+: ("/a/\x7bfoo\x7d" : String).toList) :=
  ⟨by decide, by decide, by decide,
   (claim_parameter_location "foo" "/a/\x7bfoo\x7d" []
      { ftype := "integer", format := some "int32", required := false, metadata := [] }
      none (by decide) (by decide) (by decide)).1⟩

/-- Claim C10: for an empty route table, `generate_spec` returns (without
    raising) a document carrying the configured global metadata (title,
    version, host, schemes) and no path entries. -/
theorem claim_generate_spec_empty_routes (cfg : Swagger.SpecConfig) :
    Swagger.generate_spec cfg [] =
      Except.ok
        { title := cfg.title, version := cfg.version,
          openapi_version := cfg.openapi_version, host := cfg.host,
          schemes := cfg.schemes, paths := [], schemas := [] } := rfl

theorem swagger_processOne_param (url : String) (reg : Registry) (p : HandlerParam) :
    (Swagger.processOne url reg p).2.1 = Swagger.postParam url p := by
  obtain ⟨nm, an, df⟩ := p
  cases hcond : ((an == Annot.directive) || strStartsWith nm "hug_"
      || (nm == "request") || (nm == "response")) with
  | true => simp [Swagger.processOne, Swagger.postParam, hcond]
  | false =>
    cases an <;>
      first
      | (simp [Swagger.processOne, Swagger.postParam, hcond]; done)
      | (by_cases hb : nm = "body" <;>
          simp only [Bool.or_eq_false_iff] at hcond <;>
          simp_all [Swagger.processOne, Swagger.postParam, Swagger.processBody])

theorem init_processOne_param (url : String) (reg : Registry) (p : HandlerParam) :
    (Init.processOne url reg p).2.1 = Init.postParam url p := by
  obtain ⟨nm, an, df⟩ := p
  cases an <;>
    first
    | (simp [Init.processOne, Init.postParam]; done)
    | (by_cases hb : nm = "body" <;>
        simp [Init.processOne, Init.postParam, Init.processBody, hb])

theorem swagger_processAll_params (url : String) (ps : List HandlerParam) (reg : Registry) :
    (Swagger.processAll url ps reg).2.1 = ps.map (Swagger.postParam url) := by
  induction ps generalizing reg with
  | nil => rfl
  | cons p ps ih =>
    simp only [Swagger.processAll, List.map_cons]
    rw [swagger_processOne_param, ih]

theorem init_processAll_params (url : String) (ps : List HandlerParam) (reg : Registry) :
    (Init.processAll url ps reg).2.1 = ps.map (Init.postParam url) := by
  induction ps generalizing reg with
  | nil => rfl
  | cons p ps ih =>
    simp only [Init.processAll, List.map_cons]
    rw [init_processOne_param, ih]

/-- Claim C7 (amended): `get_parameters` has no side effects beyond Schema
    Registry registration and logging, EXCEPT that it mutates each processed
    typed-field annotation in place: the field's `metadata` attribute is
    overwritten with the computed location (and, in hug_swagger/__init__.py,
    its `required` attribute is overwritten with `name not in defaults`).
    All other parameters — their names, defaults, and non-field annotation
    objects — are left unchanged, as captured by `postParam`. -/
theorem claim_get_parameters_frame (url : String) (ps : List HandlerParam) (reg : Registry) :
    (Swagger.get_parameters url ps reg).2.1 = ps.map (Swagger.postParam url)
    ∧ (Init.get_parameters url ps reg).2.1 = ps.map (Init.postParam url) :=
  ⟨swagger_processAll_params url ps reg, init_processAll_params url ps reg⟩

/-- Claim C7 counterexample: the claim as stated — that the annotation
    objects attached to the handler's parameters, including a typed-field
    annotation's `metadata` and `required` attributes, are unchanged after
    `get_parameters` returns — is false: processing a field parameter
    overwrites the field's `metadata` attribute in place
    (`parameter_kind.metadata = {"location": parameter_place}`). -/
theorem claim_get_parameters_mutates_cex :
    (Swagger.get_parameters "/x"
        [{ name := "foo",
           annot := Annot.field
             { ftype := "integer", format := some "int32", required := false, metadata := [] },
           default := none }] []).2.1
      = [{ name := "foo",
           annot := Annot.field
             { ftype := "integer", format := some "int32", required := false,
               metadata := [("location", "query")] },
           default := none }]
    ∧ [({ name := "foo",
          annot := Annot.field
            { ftype := "integer", format := some "int32", required := false,
              metadata := [("location", "query")] },
          default := none } : HandlerParam)]
      ≠ [{ name := "foo",
           annot := Annot.field
             { ftype := "integer", format := some "int32", required := false, metadata := [] },
           default := none }] := by decide

/-- Claim C5: for every typed-scalar (marshmallow field) handler parameter,
    a parameter with a default value yields a descriptor with
    `required = false` carrying that default, and one without a default
    yields `required = true` and no default — in both
    hug_swagger/swagger.py and hug_swagger/__init__.py.  (The name
    hypotheses keep the parameter out of the skip list of
    hug_swagger/swagger.py.) -/
theorem claim_default_required (url : String) (reg : Registry) (nm : String)
    (f : Field) (df : Option Int)
    (h1 : strStartsWith nm "hug_" = false) (h2 : nm ≠ "request") (h3 : nm ≠ "response") :
    (∃ d, (Swagger.processOne url reg { name := nm, annot := Annot.field f, default := df }).2.2
        = some d ∧ d.required = df.isNone ∧ d.default = df)
    ∧ (∃ d, (Init.processOne url reg { name := nm, annot := Annot.field f, default := df }).2.2
        = some d ∧ d.required = df.isNone ∧ d.default = df) := by
  constructor
  · cases df <;>
      simp [Swagger.processOne, field2parameter, h1, h2, h3]
  · cases df <;>
      simp [Init.processOne, field2parameter]

/-- Witness for claim C5 at a concrete parameter with and without the name
    hypotheses discharged. -/
theorem claim_default_required_witness :
    strStartsWith "foo" "hug_" = false ∧ ("foo" : String) ≠ "request" ∧ ("foo" : String) ≠ "response" ∧
    ((∃ d, (Swagger.processOne "/x" []
          { name := "foo",
            annot := Annot.field
              { ftype := "integer", format := some "int32", required := false, metadata := [] },
            default := some 5 }).2.2
        = some d ∧ d.required = (some (5 : Int)).isNone ∧ d.default = some 5)
     ∧ (∃ d, (Init.processOne "/x" []
          { name := "foo",
            annot := Annot.field
              { ftype := "integer", format := some "int32", required := false, metadata := [] },
            default := some 5 }).2.2
        = some d ∧ d.required = (some (5 : Int)).isNone ∧ d.default = some 5)) :=
  ⟨by decide, by decide, by decide,
   claim_default_required "/x" [] "foo"
     { ftype := "integer", format := some "int32", required := false, metadata := [] }
     (some 5) (by decide) (by decide) (by decide)⟩

end HugSwagger

namespace HugSwagger

/-- Claim C3 counterexample: the claim fails for the parameter classifier of
    hug_swagger/__init__.py, which registers a body schema under the bare
    class name: documenting two identically-named schema classes from two
    different modules registers ONE name (the second registration overwrites
    the first), not two distinct names, and both bodies reference the same
    `$ref`. -/
theorem claim_body_schema_collision_cex :
    ((Init.processOne "/x"
        (Init.processOne "/x" []
          { name := "body",
            annot := Annot.schemaCls { mod := "mod_a", name := "PayloadSchema" },
            default := none }).1
        { name := "body",
          annot := Annot.schemaCls { mod := "mod_b", name := "PayloadSchema" },
          default := none }).1).map Prod.fst
      = ["PayloadSchema"]
    ∧ (Init.processOne "/x" []
        { name := "body",
          annot := Annot.schemaCls { mod := "mod_a", name := "PayloadSchema" },
          default := none }).2.2
      = (Init.processOne "/x" []
          { name := "body",
            annot := Annot.schemaCls { mod := "mod_b", name := "PayloadSchema" },
            default := none }).2.2 := by decide

/-- Claim C3 (amended): in hug_swagger/swagger.py, a `body` argument
    annotated with a structured-schema class or instance yields exactly one
    parameter descriptor `(in = "body", name = "body", required = true,
    schema = $ref)` and registers the schema under the module-qualified
    name `f"{module}.{ClassName}"`, which is collision-resistant: two
    identically-named schema classes from different modules get distinct
    registry names.  In hug_swagger/__init__.py, however, the registry name
    is the bare class name, so identically-named classes from different
    modules collide (see the counterexample). -/
theorem claim_body_schema_qualified (url : String) (reg : Registry) (s : SchemaClass)
    (df : Option Int) :
    (Swagger.processOne url reg { name := "body", annot := Annot.schemaCls s, default := df }).2.2
      = some { location := "body", name := "body", required := true, default := none,
               schema := ParamSchemaVal.ref ("#/components/schemas/" ++ Swagger.qualifiedName s) }
    ∧ (Swagger.processOne url reg { name := "body", annot := Annot.schemaInst s, default := df }).2.2
      = some { location := "body", name := "body", required := true, default := none,
               schema := ParamSchemaVal.ref ("#/components/schemas/" ++ Swagger.qualifiedName s) }
    ∧ (Swagger.processOne url reg { name := "body", annot := Annot.schemaCls s, default := df }).1
      = Swagger.registerSchemaCaught reg (Swagger.qualifiedName s) s
    ∧ (∀ s2 : SchemaClass, s2.name = s.name → s2.mod ≠ s.mod →
        Swagger.qualifiedName s2 ≠ Swagger.qualifiedName s) := by
  refine ⟨rfl, rfl, rfl, ?_⟩
  intro s2 hn hm heq
  apply hm
  have hd := congrArg String.data heq
  simp only [Swagger.qualifiedName, String.data_append] at hd
  rw [hn] at hd
  have h1 : s2.mod.data ++ ".".data = s.mod.data ++ ".".data :=
    List.append_inj_left' hd rfl
  have h2 : s2.mod.data = s.mod.data := List.append_inj_left' h1 rfl
  exact String.ext h2

/-- Witness for claim C3 (amended) at two concrete identically-named schema
    classes from different modules. -/
theorem claim_body_schema_qualified_witness :
    (Swagger.processOne "/x" []
        { name := "body", annot := Annot.schemaCls { mod := "mod_a", name := "S" },
          default := none }).2.2
      = some { location := "body", name := "body", required := true, default := none,
               schema := ParamSchemaVal.ref
                 ("#/components/schemas/" ++ Swagger.qualifiedName { mod := "mod_a", name := "S" }) }
    ∧ Swagger.qualifiedName { mod := "mod_b", name := "S" }
        ≠ Swagger.qualifiedName { mod := "mod_a", name := "S" } :=
  ⟨(claim_body_schema_qualified "/x" [] { mod := "mod_a", name := "S" } none).1,
   (claim_body_schema_qualified "/x" [] { mod := "mod_a", name := "S" } none).2.2.2
     { mod := "mod_b", name := "S" } (by decide) (by decide)⟩

theorem countName_pos_any (reg : Registry) (nm : String) (h : 0 < countName reg nm) :
    reg.any (fun e => e.1 == nm) = true := by
  unfold countName at h
  obtain ⟨e, hmem, he⟩ := List.countP_pos_iff.mp h
  exact List.any_eq_true.mpr ⟨e, hmem, he⟩

theorem countName_zero_any (reg : Registry) (nm : String) (h : countName reg nm = 0) :
    reg.any (fun e => e.1 == nm) = false := by
  unfold countName at h
  rw [List.any_eq_false]
  intro e hmem
  have := List.countP_eq_zero.mp h e hmem
  simpa using this

/-- Claim C8: registering a schema name that is already registered (the
    identical-content case: the same definition object is re-registered)
    does not raise — the `DuplicateComponentNameError` from the registry is
    caught — and leaves exactly one definition under that name; in
    particular, two routes annotated with the same body schema both get
    their body descriptor and share one registered definition. -/
theorem claim_duplicate_registration (reg reg0 : Registry) (nm : String)
    (s s2 : SchemaClass) (url : String) (d1 d2 : Option Int) :
    (countName reg nm = 1 →
      apispecComponentsSchema reg nm s = Except.error "DuplicateComponentNameError"
      ∧ Swagger.registerSchemaCaught reg nm s = reg
      ∧ countName (Swagger.registerSchemaCaught reg nm s) nm = 1)
    ∧ (countName reg0 (Swagger.qualifiedName s2) = 0 →
      ((Swagger.processOne url reg0
          { name := "body", annot := Annot.schemaCls s2, default := d1 }).2.2).isSome = true
      ∧ (Swagger.processOne url
           (Swagger.processOne url reg0
             { name := "body", annot := Annot.schemaCls s2, default := d1 }).1
           { name := "body", annot := Annot.schemaInst s2, default := d2 }).2.2
        = (Swagger.processOne url reg0
            { name := "body", annot := Annot.schemaCls s2, default := d1 }).2.2
      ∧ countName (Swagger.processOne url
           (Swagger.processOne url reg0
             { name := "body", annot := Annot.schemaCls s2, default := d1 }).1
           { name := "body", annot := Annot.schemaInst s2, default := d2 }).1
          (Swagger.qualifiedName s2) = 1) := by
  constructor
  · intro h
    have hany := countName_pos_any reg nm (h ▸ Nat.one_pos)
    unfold Swagger.registerSchemaCaught apispecComponentsSchema
    rw [hany]
    exact ⟨rfl, rfl, h⟩
  · intro h0
    have hany0 := countName_zero_any reg0 (Swagger.qualifiedName s2) h0
    have hreg1 : (Swagger.processOne url reg0
        { name := "body", annot := Annot.schemaCls s2, default := d1 }).1
        = reg0 ++ [(Swagger.qualifiedName s2, s2)] := by
      show Swagger.registerSchemaCaught reg0 (Swagger.qualifiedName s2) s2
          = reg0 ++ [(Swagger.qualifiedName s2, s2)]
      unfold Swagger.registerSchemaCaught apispecComponentsSchema
      rw [hany0]
      simp
    have hany1 : (reg0 ++ [(Swagger.qualifiedName s2, s2)]).any
        (fun e => e.1 == Swagger.qualifiedName s2) = true := by
      rw [List.any_eq_true]
      exact ⟨(Swagger.qualifiedName s2, s2), by simp, by simp⟩
    refine ⟨rfl, ?_, ?_⟩
    · rw [hreg1]
      show (some _ : Option ParamDescriptor) = some _
      rfl
    · rw [hreg1]
      show countName (Swagger.registerSchemaCaught (reg0 ++ [(Swagger.qualifiedName s2, s2)])
          (Swagger.qualifiedName s2) s2) (Swagger.qualifiedName s2) = 1
      unfold Swagger.registerSchemaCaught apispecComponentsSchema
      rw [hany1]
      unfold countName at h0 ⊢
      simp [List.countP_append, h0]

/-- Witness for claim C8 at a concrete registry and schema. -/
theorem claim_duplicate_registration_witness :
    countName [("a.S", { mod := "a", name := "S" })] "a.S" = 1
    ∧ Swagger.registerSchemaCaught [("a.S", { mod := "a", name := "S" })] "a.S"
        { mod := "a", name := "S" } = [("a.S", { mod := "a", name := "S" })]
    ∧ countName [] (Swagger.qualifiedName { mod := "m", name := "T" }) = 0
    ∧ countName (Swagger.processOne "/x"
         (Swagger.processOne "/x" []
           { name := "body", annot := Annot.schemaCls { mod := "m", name := "T" }, default := none }).1
         { name := "body", annot := Annot.schemaInst { mod := "m", name := "T" }, default := none }).1
        (Swagger.qualifiedName { mod := "m", name := "T" }) = 1 :=
  ⟨by decide,
   ((claim_duplicate_registration [("a.S", { mod := "a", name := "S" })] [] "a.S"
      { mod := "a", name := "S" } { mod := "m", name := "T" } "/x" none none).1 (by decide)).2.1,
   by decide,
   ((claim_duplicate_registration [("a.S", { mod := "a", name := "S" })] [] "a.S"
      { mod := "a", name := "S" } { mod := "m", name := "T" } "/x" none none).2 (by decide)).2.2⟩

end HugSwagger

namespace HugSwagger

/-- Claim C2 counterexample: the claim — that `get_operation` removes the
    `schema` key of a response whose schema value is of an unrecognized
    type, so that schema values in the returned mapping are always `$ref`
    objects — is false: the unrecognized raw schema value is still present
    under the `schema` key of the returned response (the code only sets a
    local variable to None and never deletes the key). -/
theorem claim_unrecognized_schema_cex :
    Init.derefLookup (Init.get_operation none [(400, 0)] true
        [{ schema := some Init.RespSchemaVal.other, description := some "err" }] []) 400
      = some { schema := some Init.RespSchemaVal.other, description := some "err" }
    ∧ some Init.RespSchemaVal.other ≠ (none : Option Init.RespSchemaVal) := by decide

/-- Claim C2 (amended): for a response whose `schema` value is of an
    unrecognized type (neither a string, a schema instance, nor a schema
    class), `get_operation` logs an error and returns that response
    UNCHANGED: the raw schema value remains under the `schema` key and the
    other fields (e.g. `description`) are intact.  Consequently the
    guarantee that the returned mapping holds `$ref` schemas only does NOT
    hold. -/
theorem claim_unrecognized_schema_kept (s : Init.RespSchemaVal) (d0 : Option String)
    (c : Int) (ud : Bool) (reg : Registry)
    (h : Init.respSchemaRefName s = none) :
    Init.derefLookup (Init.get_operation none [(c, 0)] ud
        [{ schema := some s, description := d0 }] reg) c
      = some { schema := some s, description := d0 } := by
  cases s with
  | str n => simp [Init.respSchemaRefName] at h
  | inst c2 => simp [Init.respSchemaRefName] at h
  | cls c2 => simp [Init.respSchemaRefName] at h
  | refObj p =>
    cases ud with
    | false =>
      simp [Init.get_operation, Init.dictLookup, Init.processResps, Init.processResp,
        Init.derefLookup, List.find?]
    | true =>
      by_cases hc : c = 200
      · subst hc
        rfl
      · have hcb : (c == 200) = false := beq_eq_false_iff_ne.mpr hc
        simp [Init.get_operation, Init.dictLookup, Init.processResps, Init.processResp,
          Init.derefLookup, hcb, List.find?]
  | other =>
    cases ud with
    | false =>
      simp [Init.get_operation, Init.dictLookup, Init.processResps, Init.processResp,
        Init.derefLookup, List.find?]
    | true =>
      by_cases hc : c = 200
      · subst hc
        rfl
      · have hcb : (c == 200) = false := beq_eq_false_iff_ne.mpr hc
        simp [Init.get_operation, Init.dictLookup, Init.processResps, Init.processResp,
          Init.derefLookup, hcb, List.find?]

/-- Witness for claim C2 (amended) at a concrete unrecognized schema
    value. -/
theorem claim_unrecognized_schema_kept_witness :
    Init.respSchemaRefName Init.RespSchemaVal.other = none
    ∧ Init.derefLookup (Init.get_operation none [(7, 0)] true
        [{ schema := some Init.RespSchemaVal.other, description := some "doc" }] []) 7
      = some { schema := some Init.RespSchemaVal.other, description := some "doc" } :=
  ⟨by decide,
   claim_unrecognized_schema_kept Init.RespSchemaVal.other (some "doc") 7 true [] (by decide)⟩

/-- Claim C4 counterexample: the claim — that a return-type annotation is
    merged into explicit metadata for status 200 preserving, in particular,
    an explicitly attached schema — is false: with an explicit schema
    `"Foo"` attached for 200 and a return annotation resolving to `"Bar"`,
    the returned 200 response references `Bar`, not `Foo` (the annotation
    OVERWRITES the explicit schema). -/
theorem claim_return_annot_overwrite_cex :
    Init.derefLookup (Init.get_operation (some (Init.RespSchemaVal.str "Bar")) [(200, 0)] true
        [{ schema := some (Init.RespSchemaVal.str "Foo"), description := some "ok" }] []) 200
      = some { schema := some (Init.RespSchemaVal.refObj "#/definitions/Bar"),
               description := some "ok" }
    ∧ Init.RespSchemaVal.refObj "#/definitions/Bar"
        ≠ Init.RespSchemaVal.refObj "#/definitions/Foo" := by decide

/-- Claim C4 (amended): a declared return-type annotation is recorded as
    the schema for status code 200 and merged into the per-200 descriptor
    — its OTHER fields (e.g. `description`) are preserved — but any
    explicitly attached `schema` for status 200 is OVERWRITTEN by the
    annotation, whatever it was (`s0`). -/
theorem claim_return_annot_merge (v : Init.RespSchemaVal) (nmv : String)
    (s0 : Option Init.RespSchemaVal) (d0 : Option String) (ud : Bool) (reg : Registry)
    (h : Init.respSchemaRefName v = some nmv) :
    Init.derefLookup (Init.get_operation (some v) [(200, 0)] ud
        [{ schema := s0, description := d0 }] reg) 200
      = some { schema := some (Init.RespSchemaVal.refObj ("#/definitions/" ++ nmv)),
               description := d0 } := by
  cases v with
  | str n =>
    simp only [Init.respSchemaRefName, Option.some.injEq] at h
    subst h
    cases ud <;> rfl
  | inst c2 =>
    simp only [Init.respSchemaRefName, Option.some.injEq] at h
    subst h
    cases ud <;> rfl
  | cls c2 =>
    simp only [Init.respSchemaRefName, Option.some.injEq] at h
    subst h
    cases ud <;> rfl
  | refObj p => simp [Init.respSchemaRefName] at h
  | other => simp [Init.respSchemaRefName] at h

/-- Witness for claim C4 (amended) at a concrete annotation and explicit
    metadata. -/
theorem claim_return_annot_merge_witness :
    Init.respSchemaRefName (Init.RespSchemaVal.str "Baz") = some "Baz"
    ∧ Init.derefLookup (Init.get_operation (some (Init.RespSchemaVal.str "Baz")) [(200, 0)] false
        [{ schema := some (Init.RespSchemaVal.str "Old"), description := some "kept" }] []) 200
      = some { schema := some (Init.RespSchemaVal.refObj "#/definitions/Baz"),
               description := some "kept" } :=
  ⟨by decide,
   claim_return_annot_merge (Init.RespSchemaVal.str "Baz") "Baz"
     (some (Init.RespSchemaVal.str "Old")) (some "kept") false [] (by decide)⟩

end HugSwagger

namespace HugSwagger

theorem init_processResp_store (store : Init.Store) (reg : Registry) (addr : Nat) :
    (Init.processResp store reg addr).1 = store ∨
    ∃ d, (Init.processResp store reg addr).1 = store ++ [d] := by
  simp only [Init.processResp]
  cases (store.getD addr { schema := none, description := none }).schema with
  | none => exact Or.inl rfl
  | some s => cases s <;> exact Or.inr ⟨_, rfl⟩

theorem init_processResps_store_stable (rd : Init.RespDict) (store : Init.Store)
    (reg : Registry) (a : Nat) (h : a < store.length) :
    ((Init.processResps rd store reg).2.1)[a]? = store[a]? := by
  induction rd generalizing store reg with
  | nil => rfl
  | cons e rest ih =>
    obtain ⟨code, addr⟩ := e
    rcases init_processResp_store store reg addr with heq | ⟨d, heq⟩
    · show ((Init.processResps rest (Init.processResp store reg addr).1
          (Init.processResp store reg addr).2.1).2.1)[a]? = store[a]?
      rw [heq]
      exact ih store _ h
    · show ((Init.processResps rest (Init.processResp store reg addr).1
          (Init.processResp store reg addr).2.1).2.1)[a]? = store[a]?
      rw [heq]
      have h2 : a < (store ++ [d]).length := by
        simp only [List.length_append]
        omega
      rw [ih (store ++ [d]) _ h2]
      exact List.getElem?_append_left h

theorem init_dictLookup_mem (d : Init.RespDict) (k : Int) (a : Nat)
    (h : Init.dictLookup d k = some a) : (k, a) ∈ d := by
  unfold Init.dictLookup at h
  obtain ⟨e, he, hmap⟩ := Option.map_eq_some'.mp h
  have hp := List.find?_some he
  have hmem := List.mem_of_find?_eq_some he
  obtain ⟨e1, e2⟩ := e
  simp only at hp hmap
  have h1 : e1 = k := by simpa using hp
  subst h1
  subst hmap
  exact hmem

theorem init_dictLookup_isSome_of_mem (d : Init.RespDict) (k : Int) (a : Nat)
    (h : (k, a) ∈ d) : (Init.dictLookup d k).isSome = true := by
  unfold Init.dictLookup
  rw [Option.isSome_map']
  exact List.find?_isSome.mpr ⟨(k, a), h, by simp⟩

/-- Claim C1 (amended): `get_operation` works on a SHALLOW copy of the
    attached response metadata.  The attached mapping itself (its set of
    status codes) is never mutated, and every per-status descriptor object
    is left unchanged — EXCEPT that when the handler declares a return-type
    annotation and status 200 is present in the attached metadata, the
    shared 200-descriptor is mutated in place: its `schema` entry is
    overwritten with the raw annotation
    (`responses.setdefault(200, {})['schema'] = annotated_response_schema`
    writes through the object shared by the shallow copy).  The hypotheses
    state that `metaDict` is a well-formed dict of distinct descriptor
    objects with addresses inside the store. -/
theorem claim_get_operation_frame (ann : Option Init.RespSchemaVal) (metaDict : Init.RespDict)
    (ud : Bool) (store : Init.Store) (reg : Registry) (c : Int) (a : Nat)
    (hmem : (c, a) ∈ metaDict)
    (hvalid : ∀ e ∈ metaDict, e.2 < store.length)
    (hcodes : (metaDict.map Prod.fst).Nodup)
    (haddrs : (metaDict.map Prod.snd).Nodup) :
    ((c ≠ 200 ∨ ann = none) →
      ((Init.get_operation ann metaDict ud store reg).2.1)[a]? = store[a]?)
    ∧ (∀ v, c = 200 → ann = some v →
      ((Init.get_operation ann metaDict ud store reg).2.1)[a]? =
        (store[a]?).map (fun d => { d with schema := some v })) := by
  have ha : a < store.length := hvalid (c, a) hmem
  constructor
  · intro hor
    cases ann with
    | none =>
      cases ud with
      | false =>
        simp only [Init.get_operation, Bool.false_eq_true, if_false]
        exact init_processResps_store_stable metaDict store reg a ha
      | true =>
        rcases hdl : Init.dictLookup metaDict 200 with _ | a200
        · simp only [Init.get_operation, if_true, hdl]
          have h2 : a < (store ++ [({ schema := none, description := none } : Init.RespDescriptor)]).length := by
            simp only [List.length_append]
            omega
          rw [init_processResps_store_stable _ _ reg a h2]
          exact List.getElem?_append_left ha
        · simp only [Init.get_operation, if_true, hdl]
          exact init_processResps_store_stable metaDict store reg a ha
    | some v =>
      have hc : c ≠ 200 := by
        rcases hor with h | h
        · exact h
        · exact absurd h (by simp)
      rcases hdl : Init.dictLookup metaDict 200 with _ | a200
      · -- no 200 in the attached metadata: a fresh descriptor is appended
        have hmem2 : ((200 : Int), store.length) ∈ metaDict ++ [(200, store.length)] := by
          simp
        have hsome := init_dictLookup_isSome_of_mem _ 200 store.length hmem2
        rcases h2 : Init.dictLookup (metaDict ++ [(200, store.length)]) 200 with _ | x
        · rw [h2] at hsome
          simp at hsome
        · cases ud with
          | false =>
            simp only [Init.get_operation, hdl, Bool.false_eq_true, if_false]
            have hl : a < (store ++ [({ schema := some v, description := none } : Init.RespDescriptor)]).length := by
              simp only [List.length_append]
              omega
            rw [init_processResps_store_stable _ _ reg a hl]
            exact List.getElem?_append_left ha
          | true =>
            simp only [Init.get_operation, hdl, if_true, h2]
            have hl : a < (store ++ [({ schema := some v, description := none } : Init.RespDescriptor)]).length := by
              simp only [List.length_append]
              omega
            rw [init_processResps_store_stable _ _ reg a hl]
            exact List.getElem?_append_left ha
      · -- 200 present: the shared descriptor at a200 is assigned through
        have hmem200 := init_dictLookup_mem metaDict 200 a200 hdl
        have hne : a200 ≠ a := by
          intro heq
          subst heq
          have := List.inj_on_of_nodup_map haddrs hmem hmem200 rfl
          exact hc (congrArg Prod.fst this)
        have hset : (store.set a200
            { store.getD a200 { schema := none, description := none } with schema := some v })[a]?
            = store[a]? := List.getElem?_set_ne hne
        have hlen : a < (store.set a200
            { store.getD a200 { schema := none, description := none } with schema := some v }).length := by
          simp only [List.length_set]
          omega
        cases ud with
        | false =>
          simp only [Init.get_operation, hdl, Bool.false_eq_true, if_false]
          rw [init_processResps_store_stable _ _ reg a hlen]
          exact hset
        | true =>
          simp only [Init.get_operation, hdl, if_true]
          rw [init_processResps_store_stable _ _ reg a hlen]
          exact hset
  · intro v hc hann
    subst hc
    subst hann
    have hsome := init_dictLookup_isSome_of_mem metaDict 200 a hmem
    rcases hdl : Init.dictLookup metaDict 200 with _ | a200
    · rw [hdl] at hsome
      simp at hsome
    · have hmem200 := init_dictLookup_mem metaDict 200 a200 hdl
      have heq : a = a200 := by
        have := List.inj_on_of_nodup_map hcodes hmem hmem200 rfl
        exact congrArg Prod.snd this
      subst heq
      have hgetD : store.getD a { schema := none, description := none } = store[a] := by
        rw [List.getD_eq_getElem?_getD, List.getElem?_eq_getElem ha]
        rfl
      have hset : (store.set a
          { store.getD a { schema := none, description := none } with schema := some v })[a]?
          = some { store[a] with schema := some v } := by
        rw [List.getElem?_set_self (by simpa using ha)]
        rw [hgetD]
      have hlen : a < (store.set a
          { store.getD a { schema := none, description := none } with schema := some v }).length := by
        simp only [List.length_set]
        omega
      have hrhs : (store[a]?).map
          (fun d => ({ d with schema := some v } : Init.RespDescriptor))
          = some { store[a] with schema := some v } := by
        rw [List.getElem?_eq_getElem ha]
        rfl
      cases ud with
      | false =>
        simp only [Init.get_operation, hdl, Bool.false_eq_true, if_false]
        rw [init_processResps_store_stable _ _ reg a hlen, hset, hrhs]
      | true =>
        simp only [Init.get_operation, hdl, if_true]
        rw [init_processResps_store_stable _ _ reg a hlen, hset, hrhs]

/-- Claim C1 counterexample: the attached per-status descriptor for 200 IS
    mutated by document generation when a return annotation is merged in:
    the original descriptor object (address 0 of the store), which held
    only a description, afterwards carries the raw annotation under
    `schema`. -/
theorem claim_metadata_mutation_cex :
    ((Init.get_operation (some (Init.RespSchemaVal.str "Bar")) [(200, 0)] true
        [{ schema := none, description := some "ok" }] []).2.1)[0]?
      = some { schema := some (Init.RespSchemaVal.str "Bar"), description := some "ok" }
    ∧ ({ schema := some (Init.RespSchemaVal.str "Bar"), description := some "ok" }
        : Init.RespDescriptor)
      ≠ { schema := none, description := some "ok" } := by decide

/-- Witness for claim C1 (amended), exercising the mutating branch at a
    concrete store and metadata. -/
theorem claim_get_operation_frame_witness :
    ((200, 0) ∈ ([((200 : Int), (0 : Nat))] : Init.RespDict))
    ∧ ((Init.get_operation (some (Init.RespSchemaVal.str "Bar")) [(200, 0)] true
        [{ schema := none, description := some "ok" }] []).2.1)[0]?
      = (([({ schema := none, description := some "ok" } : Init.RespDescriptor)]
            : Init.Store)[0]?).map
          (fun d => { d with schema := some (Init.RespSchemaVal.str "Bar") }) :=
  ⟨by decide,
   (claim_get_operation_frame (some (Init.RespSchemaVal.str "Bar")) [(200, 0)] true
      [{ schema := none, description := some "ok" }] [] 200 0
      (by decide) (by decide) (by decide) (by decide)).2
     (Init.RespSchemaVal.str "Bar") rfl rfl⟩

end HugSwagger

namespace HugSwagger

theorem strDictGet_set_self {α : Type} (d : List (String × α)) (k : String) (v : α) :
    strDictGet (strDictSet d k v) k = some v := by
  induction d with
  | nil => simp [strDictSet, strDictGet]
  | cons e rest ih =>
    by_cases h : (e.1 == k) = true
    · simp [strDictSet, h, strDictGet]
    · have h2 : (e.1 == k) = false := by simpa using h
      simp only [strDictSet, h2, Bool.false_eq_true, if_false, strDictGet]
      rw [List.find?_cons_of_neg _ (by simp [h2])]
      exact ih

theorem lookupOp_addPath_self {α : Type} (ps : Paths α) (u m : String) (data : α) :
    lookupOp (addPath ps u [(m, data)]) u m = some data := by
  induction ps with
  | nil => simp [addPath, lookupOp]
  | cons e rest ih =>
    by_cases h : (e.1 == u) = true
    · simp only [addPath, h, if_true, lookupOp]
      rw [List.find?_cons_of_pos _ (by simpa using h)]
      simp only [List.foldl, Option.some_bind]
      exact strDictGet_set_self e.2 m data
    · have h2 : (e.1 == u) = false := by simpa using h
      simp only [addPath, h2, Bool.false_eq_true, if_false, lookupOp]
      rw [List.find?_cons_of_neg _ (by simp [h2])]
      exact ih

theorem lookupOp_addPath_ne {α : Type} (ps : Paths α) (u p m : String)
    (ops : List (String × α)) (hne : p ≠ u) :
    lookupOp (addPath ps u ops) p m = lookupOp ps p m := by
  induction ps with
  | nil =>
    simp [addPath, lookupOp, (beq_eq_false_iff_ne.mpr (Ne.symm hne) : (u == p) = false)]
  | cons e rest ih =>
    by_cases h : (e.1 == u) = true
    · have he : e.1 = u := eq_of_beq h
      have hp : (e.1 == p) = false := beq_eq_false_iff_ne.mpr (by rw [he]; exact Ne.symm hne)
      simp only [addPath, h, if_true, lookupOp]
      rw [List.find?_cons_of_neg _ (by simp [hp]), List.find?_cons_of_neg _ (by simp [hp])]
    · have h2 : (e.1 == u) = false := by simpa using h
      simp only [addPath, h2, Bool.false_eq_true, if_false]
      cases hp : (e.1 == p) with
      | true =>
        simp only [lookupOp]
        rw [List.find?_cons_of_pos _ (by simp [hp]), List.find?_cons_of_pos _ (by simp [hp])]
      | false =>
        simp only [lookupOp]
        rw [List.find?_cons_of_neg _ (by simp [hp]), List.find?_cons_of_neg _ (by simp [hp])]
        exact ih

theorem lookupOp_fold_preserve {α : Type} (url m : String) (data : α)
    (vs : List (Option Int)) (ps : Paths α) (p : String)
    (h : lookupOp ps p m = some data) :
    lookupOp (vs.foldl
        (fun acc version => addPath acc (Init.versionedUrl version url) [(m, data)]) ps)
      p m = some data := by
  induction vs generalizing ps with
  | nil => exact h
  | cons v2 vs ih =>
    apply ih
    by_cases hp : p = Init.versionedUrl v2 url
    · subst hp
      exact lookupOp_addPath_self ps _ m data
    · rw [lookupOp_addPath_ne ps (Init.versionedUrl v2 url) p m [(m, data)] hp]
      exact h

theorem lookupOp_fold_mem {α : Type} (url m : String) (data : α)
    (vs : List (Option Int)) (ps : Paths α) (v : Option Int) (hv : v ∈ vs) :
    lookupOp (vs.foldl
        (fun acc version => addPath acc (Init.versionedUrl version url) [(m, data)]) ps)
      (Init.versionedUrl v url) m = some data := by
  induction vs generalizing ps with
  | nil => cases hv
  | cons v2 vs ih =>
    rcases List.mem_cons.mp hv with heq | hmem
    · subst heq
      exact lookupOp_fold_preserve url m data vs _ _
        (lookupOp_addPath_self ps (Init.versionedUrl v url) m data)
    · exact ih _ hmem

/-- Claim C9 (amended): for every route entry and every version `v` in its
    normalized version-set, the operation data is registered in the paths
    mapping under the lowercased method at the effective path — which is
    `"/v" ++ version ++ url` when the version is TRUTHY (a non-None,
    nonzero int), and the unprefixed `url` when the version is None OR the
    int 0 (Python truthiness: `... if version else url`). -/
theorem claim_versioned_paths {α : Type} (ps : Paths α) (url method : String)
    (versions : Init.Versions) (data : α) (v : Option Int)
    (hv : v ∈ Init.normalizeVersions versions) :
    lookupOp (Init.addRoutePaths ps url method versions data)
        (Init.versionedUrl v url) (strToLower method) = some data
    ∧ Init.versionedUrl none url = url
    ∧ Init.versionedUrl (some 0) url = url
    ∧ (∀ n : Int, n ≠ 0 → Init.versionedUrl (some n) url = "/v" ++ toString n ++ url) := by
  refine ⟨?_, rfl, rfl, ?_⟩
  · unfold Init.addRoutePaths
    exact lookupOp_fold_mem url (strToLower method) data
      (Init.normalizeVersions versions) ps v hv
  · intro n hn
    simp [Init.versionedUrl, hn]

/-- Claim C9 counterexample: a version value of 0 is an integer version
    present in the normalized version-set, yet the route is registered at
    the UNPREFIXED url — `'/v{}{}'.format(version, url) if version else
    url` is falsy at 0 — and not at "/v0" + url as the claim, read as
    "version present", requires. -/
theorem claim_versioned_paths_cex :
    (some 0 ∈ Init.normalizeVersions (Init.Versions.scalar (some 0)))
    ∧ Init.versionedUrl (some 0) "/a" = "/a"
    ∧ Init.versionedUrl (some 0) "/a" ≠ "/v0" ++ "/a" := by decide

/-- Witness for claim C9 (amended) at a concrete route with version 1. -/
theorem claim_versioned_paths_witness :
    (some 1 ∈ Init.normalizeVersions (Init.Versions.scalar (some 1)))
    ∧ lookupOp (Init.addRoutePaths ([] : Paths Nat) "/a" "GET"
        (Init.Versions.scalar (some 1)) 0)
        (Init.versionedUrl (some 1) "/a") (strToLower "GET") = some 0 :=
  ⟨by decide,
   (claim_versioned_paths ([] : Paths Nat) "/a" "GET" (Init.Versions.scalar (some 1)) 0
      (some 1) (by decide)).1⟩

end HugSwagger
